import Mathlib

/-!
Verification of the Global Classrooms API authorization layer against its
specification.  The definitions below are a shallow embedding of the Django
code in `core/permissions.py`, `core/views.py`, `core/utils.py` and
`core/models.py`: model rows become Lean structures (primary keys are `Nat`,
Django model equality is primary-key equality), ORM querysets become list
filters over an explicit database value, and each DRF permission class's
`has_permission` / `has_object_permission` becomes a Bool-valued function.
-/

namespace GC

/-- HTTP method of a request.  `rest_framework.permissions.SAFE_METHODS`
is `('GET', 'HEAD', 'OPTIONS')`. -/
inductive Method
  | GET | HEAD | OPTIONS | POST | PUT | PATCH | DELETE
deriving DecidableEq, Repr

/-- `request.method in permissions.SAFE_METHODS`. -/
def Method.isSafe : Method → Bool
  | .GET => true
  | .HEAD => true
  | .OPTIONS => true
  | _ => false

/-- `core.models.User` (the fields the permission layer reads).
`role` is nullable (`blank=True, null=True, default=None`); `is_staff` and
`is_active` come from `AbstractUser`; `is_authenticated` is false exactly for
Django's `AnonymousUser` (for which `is_staff` is also false). -/
structure User where
  id : Nat
  role : Option String
  is_staff : Bool
  is_authenticated : Bool
  is_active : Bool := true
  wallet_address : Option String := none
deriving DecidableEq, Repr

/-- `core.models.School`: `admin` is a foreign key to `User`
(`related_name='managed_schools'`). -/
structure School where
  id : Nat
  admin : Nat
deriving DecidableEq, Repr

/-- `core.models.SchoolMembership`: `unique_together = ['user', 'school']`,
soft-deactivated via `is_active`. -/
structure SchoolMembership where
  user : Nat
  school : Nat
  is_active : Bool
deriving DecidableEq, Repr

/-- `core.models.Project` (the fields the permission layer reads):
`created_by` and `lead_school` are foreign keys; `participating_schools`
is a many-to-many through `ProjectParticipation`. -/
structure Project where
  id : Nat
  created_by : Nat
  lead_school : Nat
deriving DecidableEq, Repr

/-- `core.models.ProjectParticipation`:
`unique_together = ['project', 'school']`. -/
structure ProjectParticipation where
  project : Nat
  school : Nat
  is_active : Bool
deriving DecidableEq, Repr

/-- `core.models.ProjectParticipant`: individual (student) membership in a
project, `unique_together = ['project', 'student']`. -/
structure ProjectParticipant where
  project : Nat
  student : Nat
  is_active : Bool
deriving DecidableEq, Repr

/-- `core.models.Certificate` (authorization-relevant fields). -/
structure Certificate where
  id : Nat
  recipient : Nat
  issued_by : Nat
deriving DecidableEq, Repr

/-- `core.models.Donation` (authorization-relevant fields);
`payment_status` defaults to `'pending'`. -/
structure Donation where
  id : Nat
  payment_status : String
deriving DecidableEq, Repr

/-- The relational store the permission layer queries. -/
structure DB where
  memberships : List SchoolMembership
  participations : List ProjectParticipation
  participants : List ProjectParticipant
deriving DecidableEq, Repr

/-- `request.user.school_memberships.filter(is_active=True)`. -/
def DB.activeMembershipsOf (db : DB) (u : Nat) : List SchoolMembership :=
  db.memberships.filter (fun m => m.user == u && m.is_active)

/-- `request.user.school_memberships.filter(is_active=True)
.values_list('school', flat=True)`. -/
def DB.userSchoolIds (db : DB) (u : Nat) : List Nat :=
  (db.activeMembershipsOf u).map (fun m => m.school)

/-- `request.user.school_memberships.filter(is_active=True).exists()`. -/
def DB.hasActiveMembership (db : DB) (u : Nat) : Bool :=
  db.memberships.any (fun m => m.user == u && m.is_active)

/-- `school.memberships.filter(user=request.user, is_active=True).exists()`
(membership of `u` in the single school `s`). -/
def DB.isActiveMemberOf (db : DB) (u : Nat) (s : Nat) : Bool :=
  db.memberships.any (fun m => m.school == s && m.user == u && m.is_active)

/-- `project.participating_schools.values_list('id', flat=True)`: the
many-to-many through `ProjectParticipation` contains every through-row's
school, with no `is_active` filter on the participation. -/
def DB.participatingSchoolIds (db : DB) (p : Project) : List Nat :=
  (db.participations.filter (fun pp => pp.project == p.id)).map
    (fun pp => pp.school)

/-- `bool(set(a).intersection(set(b)))`: the two id lists intersect. -/
def listInter (a b : List Nat) : Bool :=
  a.any (fun x => b.contains x)

/-- `request.user.role in roles` for a list of role literals; `role` is
nullable and `None` is never in the list. -/
def roleIn (u : User) (roles : List String) : Bool :=
  match u.role with
  | none => false
  | some r => roles.contains r

/-!  Permission classes (`core/permissions.py`), specialised to the concrete
object types they are applied to.  The `hasattr` dispatch in the source is
resolved per object type: a `Project` has `created_by` and `lead_school`;
a `School` has `admin`; a `Certificate` has `recipient` and `issued_by`;
`ProjectUpdate` / `ProjectGoal` / `ProjectFile` rows have `project`.  -/

/-- `IsOwnerOrReadOnly.has_object_permission` applied to a `Project` object
(`hasattr(obj, 'created_by')` holds, so the first branch is taken).
Note: this class contains no `is_staff` branch. -/
def IsOwnerOrReadOnly_object (method : Method) (user : User)
    (obj : Project) : Bool :=
  if method.isSafe then true
  else obj.created_by == user.id

/-- `IsSchoolAdminOrReadOnly.has_object_permission` applied to a `School`
object (`hasattr(obj, 'admin')` holds, so the `obj.admin` branch is taken). -/
def IsSchoolAdminOrReadOnly_object (method : Method) (user : User)
    (obj : School) : Bool :=
  if method.isSafe then user.is_authenticated
  else if user.is_staff then true
  else obj.admin == user.id

/-- `IsProjectOwnerOrParticipant.has_object_permission` (the class wired to
`ProjectViewSet` for update/partial-update/destroy).  Note: this class
contains no `is_staff` branch. -/
def IsProjectOwnerOrParticipant_object (db : DB) (method : Method)
    (user : User) (obj : Project) : Bool :=
  if method.isSafe then true
  else if obj.created_by == user.id then true
  else if db.isActiveMemberOf user.id obj.lead_school then true
  else listInter (db.userSchoolIds user.id) (db.participatingSchoolIds obj)

/-- `IsCertificateRecipientOrIssuer.has_object_permission`.  The recipient
branch returns before the issuer branch is reached. -/
def IsCertificateRecipientOrIssuer_object (method : Method) (user : User)
    (obj : Certificate) : Bool :=
  if user.is_staff then true
  else if obj.recipient == user.id then method.isSafe
  else if obj.issued_by == user.id then true
  else false

/-- `IsDonorOrStaff.has_object_permission`. -/
def IsDonorOrStaff_object (method : Method) (user : User)
    (obj : Donation) : Bool :=
  if user.is_staff then true
  else if method.isSafe then obj.payment_status == "completed"
  else false

/-- `CanViewSchoolData.has_object_permission` applied to a `School` object
(the `hasattr(obj, 'admin')` arm resolves `school = obj`). -/
def CanViewSchoolData_object (db : DB) (user : User) (obj : School) : Bool :=
  if user.is_staff then true
  else if obj.admin == user.id then true
  else db.isActiveMemberOf user.id obj.id

/-- `CanManageSchoolContent.has_object_permission` applied to a `School`
object (the `hasattr(obj, 'admin')` arm resolves `school = obj`). -/
def CanManageSchoolContent_object (db : DB) (user : User)
    (obj : School) : Bool :=
  if user.is_staff then true
  else if obj.admin == user.id then true
  else if user.role == some "teacher" then
    db.isActiveMemberOf user.id obj.id
  else false

/-- `CanManageProjectContent.has_permission`. -/
def CanManageProjectContent_request (db : DB) (user : User) : Bool :=
  if !user.is_authenticated then false
  else if user.is_staff then true
  else db.hasActiveMembership user.id

/-- `CanManageProjectContent.has_object_permission`, with `project` the
result of the `hasattr` dispatch (`obj.project` for a child row, `obj`
for a `Project`). -/
def CanManageProjectContent_object (db : DB) (user : User)
    (project : Project) : Bool :=
  if user.is_staff then true
  else if project.created_by == user.id then true
  else if db.isActiveMemberOf user.id project.lead_school then true
  else listInter (db.userSchoolIds user.id) (db.participatingSchoolIds project)

/-- `CanUploadProjectProgress.has_permission`. -/
def CanUploadProjectProgress_request (db : DB) (user : User) : Bool :=
  if !user.is_authenticated then false
  else if user.is_staff then true
  else db.hasActiveMembership user.id

/-- `CanUploadProjectProgress.has_object_permission`, with `project` the
result of the `hasattr` dispatch.  Teachers/admins need a school in the
project's school set (participating schools plus the lead school, appended
when absent); students need an active `ProjectParticipant` row. -/
def CanUploadProjectProgress_object (db : DB) (user : User)
    (project : Project) : Bool :=
  if user.is_staff then true
  else if roleIn user ["teacher", "school_admin", "super_admin"] then
    let user_schools := db.userSchoolIds user.id
    let ps := db.participatingSchoolIds project
    let project_schools :=
      if ps.contains project.lead_school then ps
      else ps ++ [project.lead_school]
    listInter user_schools project_schools
  else if user.role == some "student" then
    db.participants.any
      (fun pp => pp.project == project.id && pp.student == user.id
        && pp.is_active)
  else false

/-- The full decision of the `CanUploadProjectProgress` class on an
object-level action: DRF requires `has_permission` and
`has_object_permission` to both pass. -/
def CanUploadProjectProgress_decision (db : DB) (user : User)
    (project : Project) : Bool :=
  CanUploadProjectProgress_request db user
    && CanUploadProjectProgress_object db user project

/-- `core.permissions.is_school_admin` (utility function): note the
`or user.is_staff` disjunct. -/
def is_school_admin (user : User) (school : School) : Bool :=
  school.admin == user.id || user.is_staff

/-- `DonationViewSet.get_queryset`: staff see every donation, everyone else
(including anonymous requesters, whose `is_staff` is false) sees only
`payment_status='completed'` rows. -/
def DonationViewSet_get_queryset (donations : List Donation)
    (user : User) : List Donation :=
  if user.is_staff then donations
  else donations.filter (fun d => d.payment_status == "completed")

/-!  Authentication flows (`core/views.py`, `core/utils.py`).  -/

/-- Python falsiness of `request.data.get(...)`: the key is absent (`None`)
or the value is the empty string. -/
def falsyStr : Option String → Bool
  | none => true
  | some s => s == ""

/-- Python's `str.lower()` (applied to wallet addresses and recovered
hex addresses), written over the character list so that it is computable by
the kernel. -/
def strLower (s : String) : String :=
  ⟨s.data.map Char.toLower⟩

/-- `WalletNonce` row as used by `core.utils.verify_wallet_signature`
(`.get(wallet_address=...)`, `.nonce`, `.created_at`, `.delete()`).
Modelled from the spec: the `WalletNonce` model class itself is absent from
the source tree (`core/models.py` does not define it although `core/utils.py`
imports it); the spec says a nonce is issued and stored with a server
timestamp, keyed by wallet address. -/
structure WalletNonce where
  wallet_address : String
  nonce : String
  created_at : Int
deriving DecidableEq, Repr

/-- The store read by the login views: users and stored login nonces.
Timestamps are seconds. -/
structure AuthDB where
  users : List User
  nonces : List WalletNonce
deriving DecidableEq, Repr

/-- Outcome of `WalletLoginView.post`. -/
inductive LoginOutcome
  | fieldRequired (field : String)
  | invalidSignature
  | invalidSignatureFormat
  | userNotFound
  | userInactive
  | tokens (user : Nat)
deriving DecidableEq, Repr

/-- `WalletLoginView.post` (`core/views.py` lines 143-183).  `recover`
models `Account.recover_message` on `encode_defunct(text=message)`: it
returns the recovered address, or `none` when the library raises (malformed
signature).  The view makes no store writes: it checks the three fields,
verifies the signature against the claimed address (case-insensitively),
looks the user up by `wallet_address__iexact`, and issues tokens.  It never
reads, consumes or deletes a `WalletNonce`. -/
def WalletLoginView_post (recover : String → String → Option String)
    (db : AuthDB) (wallet_address signature message : Option String) :
    LoginOutcome × AuthDB :=
  if falsyStr wallet_address then (.fieldRequired "wallet_address", db)
  else if falsyStr signature then (.fieldRequired "signature", db)
  else if falsyStr message then (.fieldRequired "message", db)
  else
    let wa := wallet_address.getD ""
    match recover (message.getD "") (signature.getD "") with
    | none => (.invalidSignatureFormat, db)
    | some recovered =>
      if strLower recovered != strLower wa then (.invalidSignature, db)
      else
        match db.users.find? (fun u =>
            match u.wallet_address with
            | some w => strLower w == strLower wa
            | none => false) with
        | none => (.userNotFound, db)
        | some user =>
          if !user.is_active then (.userInactive, db)
          else (.tokens user.id, db)

/-- Error cases of `core.utils.verify_wallet_signature`. -/
inductive VerifySigError
  | nonceNotFound
  | nonceExpired
  | invalidNonceOrMessage
  | invalidSignature
  | invalidSignatureFormat
deriving DecidableEq, Repr

/-- The exact message `verify_wallet_signature` expects the client to have
signed. -/
def expectedWalletMessage (purpose nonce : String) : String :=
  purpose ++ " to Global Classrooms with this wallet\n\nNonce: " ++ nonce

/-- `core.utils.verify_wallet_signature` (lines 406-447): loads the nonce for
the lowercased wallet address, rejects it if older than 10 minutes, requires
the message to be exactly the expected string, verifies the signature, and on
success deletes the nonce row (one-time use).  This helper is defined in the
repository but is never called by any view. -/
def verify_wallet_signature (recover : String → String → Option String)
    (now : Int) (nonces : List WalletNonce)
    (wallet_address message signature purpose : String) :
    Option VerifySigError × List WalletNonce :=
  let wa := strLower wallet_address
  match nonces.find? (fun n => n.wallet_address == wa) with
  | none => (some .nonceNotFound, nonces)
  | some nonce_obj =>
    if nonce_obj.created_at < now - 600 then (some .nonceExpired, nonces)
    else if message != expectedWalletMessage purpose nonce_obj.nonce then
      (some .invalidNonceOrMessage, nonces)
    else
      match recover message signature with
      | none => (some .invalidSignatureFormat, nonces)
      | some recovered =>
        if strLower recovered != wa then (some .invalidSignature, nonces)
        else (none, nonces.erase nonce_obj)

/-- `core.models.EmailLoginOTP` row (`created_at` in seconds). -/
structure EmailLoginOTP where
  id : Nat
  email : String
  code : String
  created_at : Int
  is_used : Bool
deriving DecidableEq, Repr

/-- `EmailLoginOTP.is_expired`:
`(timezone.now() - self.created_at).total_seconds() > 600`. -/
def EmailLoginOTP.is_expired (otp : EmailLoginOTP) (now : Int) : Bool :=
  now - otp.created_at > 600

/-- `EmailLoginRequestView.post` code generation:
`str(100000 + secrets.randbelow(900000))`, where `r < 900000` is the value
drawn by `secrets.randbelow`. -/
def EmailLoginRequestView_code (r : Nat) : String :=
  toString (100000 + r)

/-- `.latest('created_at')` on a filtered queryset: the row with the greatest
`created_at` (`none` models `DoesNotExist`; on equal timestamps the first row
in store order is kept). -/
def latestByCreated (l : List EmailLoginOTP) : Option EmailLoginOTP :=
  l.foldl (fun acc o =>
    match acc with
    | none => some o
    | some a => if o.created_at > a.created_at then some o else some a) none

/-- Outcome of `EmailLoginVerifyView.post`. -/
inductive OtpOutcome
  | missingFields
  | invalidCode
  | codeExpired
  | tokens (email : String)
deriving DecidableEq, Repr

/-- `EmailLoginVerifyView.post` (`core/views.py` lines 240-263): picks the
latest unused OTP row matching (email, code); missing row is `Invalid code.`,
an expired row is `Code expired.`, otherwise the row is marked used
(`otp.is_used = True; otp.save()`) and tokens are issued. -/
def EmailLoginVerifyView_post (db : List EmailLoginOTP) (now : Int)
    (email code : Option String) : OtpOutcome × List EmailLoginOTP :=
  if falsyStr email || falsyStr code then (.missingFields, db)
  else
    let e := email.getD ""
    let c := code.getD ""
    match latestByCreated
        (db.filter (fun o => o.email == e && o.code == c && !o.is_used)) with
    | none => (.invalidCode, db)
    | some otp =>
      if otp.is_expired now then (.codeExpired, db)
      else
        (.tokens e,
         db.map (fun o =>
           if o.id == otp.id then { o with is_used := true } else o))

/-- Outcome of `ProjectViewSet.join`. -/
inductive JoinOutcome
  | mustBeMember
  | alreadyParticipating
  | joined
deriving DecidableEq, Repr

/-- `ProjectViewSet.join` (`core/views.py` lines 536-571): requires an active
school membership, takes the *first* active membership's school in store
order (`school_memberships.first()`), then `get_or_create` on
`(project, school)` with `is_active=True` as default; an existing active
participation is a 400 error, an existing inactive one is reactivated. -/
def ProjectViewSet_join (db : DB) (user : User) (project : Nat) :
    JoinOutcome × DB :=
  let school_memberships :=
    db.memberships.filter (fun m => m.user == user.id && m.is_active)
  match school_memberships.head? with
  | none => (.mustBeMember, db)
  | some firstMembership =>
    let school := firstMembership.school
    match db.participations.find?
        (fun pp => pp.project == project && pp.school == school) with
    | none =>
      (.joined,
       { db with participations :=
           db.participations ++ [⟨project, school, true⟩] })
    | some participation =>
      if participation.is_active then (.alreadyParticipating, db)
      else
        (.joined,
         { db with participations := db.participations.map (fun q =>
             if q.project == project && q.school == school then
               { q with is_active := true }
             else q) })

/-- The message a wallet client signs in the login replay scenario. -/
def replayMessage : String :=
  "Login to Global Classrooms with this wallet\n\nNonce: n1"

/-- A concrete signature-recovery function for the replay scenario: the one
known (message, signature) pair recovers to the wallet address, anything
else is a malformed signature. -/
def replayRecover : String → String → Option String := fun m s =>
  if m == replayMessage && s == "sig1" then some "0xAB" else none

/-- Store for the replay scenario: one active wallet user (id 7, wallet
`0xAB`) and one stored, fresh nonce row for that wallet. -/
def replayDB : AuthDB :=
  ⟨[⟨7, some "teacher", false, true, true, some "0xAB"⟩],
   [⟨"0xab", "n1", 0⟩]⟩

/-- `core.models.ProjectUpdate` row as written by
`ProjectUpdateViewSet.perform_create` (`project`, `school`, `uploaded_by`). -/
structure ProjectUpdate where
  project : Nat
  school : Nat
  uploaded_by : Nat
deriving DecidableEq, Repr

/-- Outcome of a POST (create) to `ProjectUpdateViewSet`. -/
inductive UploadOutcome
  | permissionDenied
  | notActiveMember
  | created (row : ProjectUpdate)
deriving DecidableEq, Repr

/-- The upload (create) path of `ProjectUpdateViewSet`
(`core/views.py` lines 986-1005): for a POST create DRF evaluates only
`CanUploadProjectProgress.has_permission` — `has_object_permission` runs
solely on detail routes, since create fetches no object — and then
`perform_create` takes the requester's first active school membership
(`ValidationError` when there is none) and saves the row with that school;
no `ProjectParticipant` check is made anywhere on this path. -/
def ProjectUpdateViewSet_create (db : DB) (user : User)
    (project : Project) : UploadOutcome :=
  if !CanUploadProjectProgress_request db user then .permissionDenied
  else
    match (db.memberships.filter
        (fun m => m.user == user.id && m.is_active)).head? with
    | none => .notActiveMember
    | some m => .created ⟨project.id, m.school, user.id⟩

/-- The only permission check `CertificateViewSet` runs
(`core/views.py` line 650): `permission_classes =
[permissions.IsAuthenticated]`.  `IsCertificateRecipientOrIssuer` is defined
in `core/permissions.py` but is not imported by `core/views.py` and guards
no view. -/
def CertificateViewSet_permission (user : User) : Bool :=
  user.is_authenticated

/-- `CertificateViewSet.get_queryset` (`core/views.py` lines 656-664):
staff see every certificate, everyone else exactly those where they are the
recipient or the issuer (`Q(recipient=user) | Q(issued_by=user)`). -/
def CertificateViewSet_get_queryset (certs : List Certificate)
    (user : User) : List Certificate :=
  if user.is_staff then certs
  else certs.filter
    (fun c => c.recipient == user.id || c.issued_by == user.id)

/-- The effective decision for a write (update/partial-update/destroy) on
certificate `pk` through `CertificateViewSet`: the object is fetched by pk
from the requester's queryset, and the only permission class is
`IsAuthenticated`, which defines no `has_object_permission` — so no
object-level restriction runs. -/
def CertificateViewSet_write_allowed (certs : List Certificate)
    (user : User) (pk : Nat) : Bool :=
  CertificateViewSet_permission user
    && (CertificateViewSet_get_queryset certs user).any
      (fun c => c.id == pk)

/-!  Helper lemmas about the membership queries.  -/

theorem hasActiveMembership_eq_false_iff (db : DB) (u : Nat) :
    db.hasActiveMembership u = false ↔
      ∀ m ∈ db.memberships, m.user = u → m.is_active = false := by
  simp [DB.hasActiveMembership, List.any_eq_true]

theorem activeMembershipsOf_eq_nil {db : DB} {u : Nat}
    (h : ∀ m ∈ db.memberships, m.user = u → m.is_active = false) :
    db.activeMembershipsOf u = [] := by
  simp only [DB.activeMembershipsOf]
  rw [List.filter_eq_nil_iff]
  intro m hm
  simp only [Bool.and_eq_true, beq_iff_eq, not_and, Bool.not_eq_true]
  exact h m hm

theorem userSchoolIds_eq_nil {db : DB} {u : Nat}
    (h : ∀ m ∈ db.memberships, m.user = u → m.is_active = false) :
    db.userSchoolIds u = [] := by
  simp [DB.userSchoolIds, activeMembershipsOf_eq_nil h]

theorem isActiveMemberOf_eq_false {db : DB} {u : Nat} (s : Nat)
    (h : ∀ m ∈ db.memberships, m.user = u → m.is_active = false) :
    db.isActiveMemberOf u s = false := by
  simp only [DB.isActiveMemberOf]
  simp [List.any_eq_true]
  intro m hm _
  exact h m hm

theorem listInter_nil_left (b : List Nat) : listInter [] b = false := rfl

/-- C2 counterexample: a platform-staff actor (`is_staff = true`) who is not
the creator of a project and has no school memberships is DENIED a write by
`IsProjectOwnerOrParticipant` (the class guarding project update/destroy)
and by `IsOwnerOrReadOnly`: neither class contains an `is_staff` branch, so
the claim that every permission check allows staff is false. -/
theorem C2_staff_override_counterexample :
    IsProjectOwnerOrParticipant_object ⟨[], [], []⟩ Method.PUT
      ⟨1, none, true, true, true, none⟩ ⟨10, 2, 3⟩ = false ∧
    IsOwnerOrReadOnly_object Method.PUT
      ⟨1, none, true, true, true, none⟩ ⟨10, 2, 3⟩ = false ∧
    (⟨1, none, true, true, true, none⟩ : User).is_staff = true := by
  decide

/-- C2 (amended): the staff override holds in every permission check that
contains an `is_staff` branch (`IsSchoolAdminOrReadOnly`,
`IsCertificateRecipientOrIssuer`, `IsDonorOrStaff`, `CanViewSchoolData`,
`CanManageSchoolContent`, `CanManageProjectContent`,
`CanUploadProjectProgress`, `is_school_admin`, the donation queryset), but
`IsOwnerOrReadOnly` and `IsProjectOwnerOrParticipant` have no such branch:
there a staff actor who is not the owner/creator and has no active
membership is denied non-safe actions. -/
theorem C2_staff_override_amended (u : User)
    (hs : u.is_staff = true) (ha : u.is_authenticated = true) :
    (∀ (method : Method) (s : School),
        IsSchoolAdminOrReadOnly_object method u s = true) ∧
    (∀ (method : Method) (c : Certificate),
        IsCertificateRecipientOrIssuer_object method u c = true) ∧
    (∀ (method : Method) (d : Donation),
        IsDonorOrStaff_object method u d = true) ∧
    (∀ (db : DB) (s : School), CanViewSchoolData_object db u s = true) ∧
    (∀ (db : DB) (s : School), CanManageSchoolContent_object db u s = true) ∧
    (∀ (db : DB), CanManageProjectContent_request db u = true) ∧
    (∀ (db : DB) (p : Project),
        CanManageProjectContent_object db u p = true) ∧
    (∀ (db : DB) (p : Project),
        CanUploadProjectProgress_decision db u p = true) ∧
    (∀ (s : School), is_school_admin u s = true) ∧
    (∀ (donations : List Donation),
        DonationViewSet_get_queryset donations u = donations) ∧
    (∀ (db : DB) (method : Method) (p : Project),
        method.isSafe = false → p.created_by ≠ u.id →
        db.hasActiveMembership u.id = false →
        IsProjectOwnerOrParticipant_object db method u p = false ∧
        IsOwnerOrReadOnly_object method u p = false) := by
  refine ⟨?_, ?_, ?_, ?_, ?_, ?_, ?_, ?_, ?_, ?_, ?_⟩
  · intro method s
    cases hsafe : method.isSafe <;>
      simp [IsSchoolAdminOrReadOnly_object, hsafe, hs, ha]
  · intro method c; simp [IsCertificateRecipientOrIssuer_object, hs]
  · intro method d; simp [IsDonorOrStaff_object, hs]
  · intro db s; simp [CanViewSchoolData_object, hs]
  · intro db s; simp [CanManageSchoolContent_object, hs]
  · intro db; simp [CanManageProjectContent_request, hs, ha]
  · intro db p; simp [CanManageProjectContent_object, hs]
  · intro db p
    simp [CanUploadProjectProgress_decision, CanUploadProjectProgress_request,
      CanUploadProjectProgress_object, hs, ha]
  · intro s; simp [is_school_admin, hs]
  · intro donations; simp [DonationViewSet_get_queryset, hs]
  · intro db method p hsafe hcreated hmem
    have hmem' := (hasActiveMembership_eq_false_iff db u.id).mp hmem
    constructor
    · simp [IsProjectOwnerOrParticipant_object, hsafe, hcreated,
        isActiveMemberOf_eq_false _ hmem', userSchoolIds_eq_nil hmem',
        listInter_nil_left]
    · simp [IsOwnerOrReadOnly_object, hsafe]
      intro h
      exact absurd h hcreated

/-- C2 witness: the amended staff-override theorem applied at a concrete
staff user, empty store, and concrete objects. -/
theorem C2_staff_override_amended_witness :
    CanUploadProjectProgress_decision ⟨[], [], []⟩
      ⟨1, none, true, true, true, none⟩ ⟨10, 2, 3⟩ = true ∧
    IsProjectOwnerOrParticipant_object ⟨[], [], []⟩ Method.PUT
      ⟨1, none, true, true, true, none⟩ ⟨10, 2, 3⟩ = false := by
  have h := C2_staff_override_amended ⟨1, none, true, true, true, none⟩
    rfl rfl
  exact ⟨h.2.2.2.2.2.2.2.1 ⟨[], [], []⟩ ⟨10, 2, 3⟩,
    (h.2.2.2.2.2.2.2.2.2.2 ⟨[], [], []⟩ Method.PUT ⟨10, 2, 3⟩
      rfl (by decide) rfl).1⟩

/-- C5 counterexample: `is_school_admin` also returns true for any
platform-staff actor, even when `school.admin` is someone else, so the
"admin iff `school.admin == actor`" claim is false. -/
theorem C5_is_school_admin_counterexample :
    is_school_admin ⟨1, none, true, true, true, none⟩ ⟨5, 2⟩ = true ∧
    (⟨5, 2⟩ : School).admin ≠ (⟨1, none, true, true, true, none⟩ : User).id := by
  decide

/-- C5 (amended): `is_school_admin user school` is true iff
`school.admin == user` OR the user is platform staff; it takes no membership
data at all, and for non-staff actors the original iff holds. -/
theorem C5_is_school_admin_amended (u : User) (s : School) :
    (is_school_admin u s = true ↔ (s.admin = u.id ∨ u.is_staff = true)) ∧
    (u.is_staff = false → (is_school_admin u s = true ↔ s.admin = u.id)) := by
  constructor
  · simp [is_school_admin]
  · intro h; simp [is_school_admin, h]

/-- C5 witness: the amended characterization applied to a concrete non-staff
school admin. -/
theorem C5_is_school_admin_amended_witness :
    is_school_admin ⟨3, some "teacher", false, true, true, none⟩ ⟨5, 3⟩ = true := by
  exact ((C5_is_school_admin_amended ⟨3, some "teacher", false, true, true, none⟩
    ⟨5, 3⟩).2 rfl).mpr rfl

/-- C6 (code bug, evaluated at the failing input): `CertificateViewSet`
runs with `IsAuthenticated` only — `IsCertificateRecipientOrIssuer` is
never imported by any view — so an authenticated non-staff recipient who is
not the issuer CAN write their own certificate: it sits in their queryset
and no object-level check runs.  The unwired permission class (whose
docstring states the claimed recipient-read-only rule) would have denied
that same write. -/
theorem C6_recipient_write_not_denied :
    CertificateViewSet_write_allowed [⟨1, 5, 9⟩]
      ⟨5, some "student", false, true, true, none⟩ 1 = true ∧
    (⟨1, 5, 9⟩ : Certificate).recipient
      = (⟨5, some "student", false, true, true, none⟩ : User).id ∧
    (⟨1, 5, 9⟩ : Certificate).issued_by
      ≠ (⟨5, some "student", false, true, true, none⟩ : User).id ∧
    (⟨5, some "student", false, true, true, none⟩ : User).is_staff
      = false ∧
    IsCertificateRecipientOrIssuer_object Method.PATCH
      ⟨5, some "student", false, true, true, none⟩ ⟨1, 5, 9⟩ = false := by
  decide

/-- C7: the donation list for a non-staff requester (anonymous included) is
exactly the `payment_status = completed` rows — a pending donation is
excluded — while a staff requester sees every donation. -/
theorem C7_donation_visibility (donations : List Donation) (u : User) :
    (u.is_staff = false →
      ∀ d, d ∈ DonationViewSet_get_queryset donations u ↔
        (d ∈ donations ∧ d.payment_status = "completed")) ∧
    (u.is_staff = false → ∀ d ∈ donations, d.payment_status = "pending" →
      d ∉ DonationViewSet_get_queryset donations u) ∧
    (u.is_staff = true → DonationViewSet_get_queryset donations u = donations) := by
  refine ⟨?_, ?_, ?_⟩
  · intro hs d
    simp [DonationViewSet_get_queryset, hs, List.mem_filter]
  · intro hs d hd hp
    simp [DonationViewSet_get_queryset, hs, List.mem_filter, hp]
  · intro hs
    simp [DonationViewSet_get_queryset, hs]

/-- C7 witness: a concrete pending donation is absent from the anonymous
requester's donation list. -/
theorem C7_donation_visibility_witness :
    (⟨1, "pending"⟩ : Donation) ∉
      DonationViewSet_get_queryset [⟨1, "pending"⟩, ⟨2, "completed"⟩]
        ⟨0, none, false, false, true, none⟩ := by
  exact (C7_donation_visibility [⟨1, "pending"⟩, ⟨2, "completed"⟩]
    ⟨0, none, false, false, true, none⟩).2.1 rfl ⟨1, "pending"⟩
    (by simp) rfl

/-- C8: for non-safe methods on a School object, `IsSchoolAdminOrReadOnly`
denies every authenticated non-staff actor who is not `school.admin` — an
active membership (e.g. a teacher membership, which the class never reads)
does not help — and allows exactly staff or the school admin. -/
theorem C8_school_write_admin_only (db : DB) (method : Method) (u : User)
    (s : School) (hsafe8 : method.isSafe = false) (_ha : u.is_authenticated = true) :
    (db.isActiveMemberOf u.id s.id = true → u.is_staff = false →
      s.admin ≠ u.id → IsSchoolAdminOrReadOnly_object method u s = false) ∧
    ((u.is_staff = true ∨ s.admin = u.id) →
      IsSchoolAdminOrReadOnly_object method u s = true) := by
  constructor
  · intro _ hstaff hadmin
    simp [IsSchoolAdminOrReadOnly_object, hsafe8, hstaff]
    intro h
    exact absurd h hadmin
  · rintro (hstaff | hadmin)
    · simp [IsSchoolAdminOrReadOnly_object, hsafe8, hstaff]
    · simp [IsSchoolAdminOrReadOnly_object, hsafe8, hadmin]

/-- C8 witness: Bob (id 2, teacher, active member of school 7) cannot write
school 7 whose admin is Alice (id 1); Alice can. -/
theorem C8_school_write_admin_only_witness :
    IsSchoolAdminOrReadOnly_object Method.PATCH
      ⟨2, some "teacher", false, true, true, none⟩ ⟨7, 1⟩ = false ∧
    IsSchoolAdminOrReadOnly_object Method.PATCH
      ⟨1, some "school_admin", false, true, true, none⟩ ⟨7, 1⟩ = true := by
  constructor
  · exact (C8_school_write_admin_only ⟨[⟨2, 7, true⟩], [], []⟩ Method.PATCH
      ⟨2, some "teacher", false, true, true, none⟩ ⟨7, 1⟩ rfl rfl).1
      (by decide) rfl (by decide)
  · exact (C8_school_write_admin_only ⟨[], [], []⟩ Method.PATCH
      ⟨1, some "school_admin", false, true, true, none⟩ ⟨7, 1⟩ rfl rfl).2
      (Or.inr rfl)

theorem hasActiveMembership_of_isActiveMemberOf {db : DB} {u s : Nat}
    (h : db.isActiveMemberOf u s = true) :
    db.hasActiveMembership u = true := by
  simp only [DB.isActiveMemberOf, List.any_eq_true, Bool.and_eq_true,
    beq_iff_eq] at h
  obtain ⟨m, hm, ⟨_, h2⟩, h3⟩ := h
  simp only [DB.hasActiveMembership, List.any_eq_true, Bool.and_eq_true,
    beq_iff_eq]
  exact ⟨m, hm, h2, h3⟩

theorem mem_userSchoolIds_of_isActiveMemberOf {db : DB} {u s : Nat}
    (h : db.isActiveMemberOf u s = true) : s ∈ db.userSchoolIds u := by
  simp only [DB.isActiveMemberOf, List.any_eq_true, Bool.and_eq_true,
    beq_iff_eq] at h
  obtain ⟨m, hm, ⟨h1, h2⟩, h3⟩ := h
  simp only [DB.userSchoolIds, DB.activeMembershipsOf, List.mem_map,
    List.mem_filter, Bool.and_eq_true, beq_iff_eq]
  exact ⟨m, ⟨hm, h2, h3⟩, h1⟩

theorem listInter_of_mem {a b : List Nat} {x : Nat} (hxa : x ∈ a)
    (hxb : x ∈ b) : listInter a b = true := by
  simp only [listInter, List.any_eq_true]
  exact ⟨x, hxa, by simpa using hxb⟩

theorem lead_mem_projectSchools (ps : List Nat) (l : Nat) :
    l ∈ (if l ∈ ps then ps else ps ++ [l]) := by
  by_cases h : l ∈ ps
  · rwa [if_pos h]
  · rw [if_neg h]
    exact List.mem_append_right ps (List.mem_singleton_self l)

/-- C3: a user whose membership rows are all deactivated gets no
relationship-based Allow from them: the request-level checks of
`CanManageProjectContent` / `CanUploadProjectProgress` fail outright, and the
object-level checks of `IsProjectOwnerOrParticipant`,
`CanManageProjectContent`, `CanViewSchoolData` and `CanManageSchoolContent`
all deny once the creator/admin/staff paths are excluded: every membership
lookup filters on `is_active=True`. -/
theorem C3_inactive_membership_never_allows (db : DB) (u : User)
    (hstaff : u.is_staff = false)
    (hmem : ∀ m ∈ db.memberships, m.user = u.id → m.is_active = false) :
    CanManageProjectContent_request db u = false ∧
    CanUploadProjectProgress_request db u = false ∧
    (∀ (method : Method) (p : Project), method.isSafe = false →
      p.created_by ≠ u.id →
      IsProjectOwnerOrParticipant_object db method u p = false) ∧
    (∀ p : Project, p.created_by ≠ u.id →
      CanManageProjectContent_object db u p = false) ∧
    (∀ s : School, s.admin ≠ u.id →
      CanViewSchoolData_object db u s = false) ∧
    (∀ s : School, s.admin ≠ u.id →
      CanManageSchoolContent_object db u s = false) := by
  have hact : db.hasActiveMembership u.id = false :=
    (hasActiveMembership_eq_false_iff db u.id).mpr hmem
  refine ⟨?_, ?_, ?_, ?_, ?_, ?_⟩
  · cases hauth : u.is_authenticated <;>
      simp [CanManageProjectContent_request, hstaff, hact, hauth]
  · cases hauth : u.is_authenticated <;>
      simp [CanUploadProjectProgress_request, hstaff, hact, hauth]
  · intro method p hsafe hcr
    simp [IsProjectOwnerOrParticipant_object, hsafe, hcr,
      isActiveMemberOf_eq_false _ hmem, userSchoolIds_eq_nil hmem,
      listInter_nil_left]
  · intro p hcr
    simp [CanManageProjectContent_object, hstaff, hcr,
      isActiveMemberOf_eq_false _ hmem, userSchoolIds_eq_nil hmem,
      listInter_nil_left]
  · intro s hadmin
    simp [CanViewSchoolData_object, hstaff, hadmin,
      isActiveMemberOf_eq_false _ hmem]
  · intro s hadmin
    simp [CanManageSchoolContent_object, hstaff, hadmin,
      isActiveMemberOf_eq_false _ hmem]

/-- C3 witness: the inactive-membership theorem applied to a concrete user
with a single deactivated membership row for school 7. -/
theorem C3_inactive_membership_never_allows_witness :
    CanViewSchoolData_object ⟨[⟨4, 7, false⟩], [], []⟩
      ⟨4, some "teacher", false, true, true, none⟩ ⟨7, 1⟩ = false := by
  exact (C3_inactive_membership_never_allows ⟨[⟨4, 7, false⟩], [], []⟩
    ⟨4, some "teacher", false, true, true, none⟩ rfl
    (by intro m hm; simp at hm; simp [hm])).2.2.2.2.1 ⟨7, 1⟩ (by decide)

/-- C4 (code bug): an upload is a create, and on the create path DRF runs
only `CanUploadProjectProgress.has_permission`, which admits any
authenticated non-staff user with one active school membership;
`perform_create` adds no `ProjectParticipant` check.  So a student with an
active school membership and no active participant row is NOT denied — the
`ProjectUpdate` row is created for their first membership's school — even
though the same class's object-level check (consulted only on detail
routes, and the class's own docstring) would deny that student. -/
theorem C4_student_upload_not_denied (db : DB) (u : User) (p : Project)
    (hrole : u.role = some "student") (hstaff : u.is_staff = false)
    (hauth : u.is_authenticated = true)
    (hmem : db.hasActiveMembership u.id = true)
    (hnopart : ∀ pp ∈ db.participants,
      pp.project = p.id → pp.student = u.id → pp.is_active = false) :
    (∃ m, (db.memberships.filter
        (fun m => m.user == u.id && m.is_active)).head? = some m ∧
      ProjectUpdateViewSet_create db u p
        = UploadOutcome.created ⟨p.id, m.school, u.id⟩) ∧
    CanUploadProjectProgress_object db u p = false := by
  constructor
  · have hreq : CanUploadProjectProgress_request db u = true := by
      simp [CanUploadProjectProgress_request, hauth, hstaff, hmem]
    have hne : db.memberships.filter
        (fun m => m.user == u.id && m.is_active) ≠ [] := by
      simp only [DB.hasActiveMembership, List.any_eq_true] at hmem
      obtain ⟨x, hx, hpx⟩ := hmem
      exact List.ne_nil_of_mem (List.mem_filter.mpr ⟨hx, hpx⟩)
    cases hh : (db.memberships.filter
        (fun m => m.user == u.id && m.is_active)).head? with
    | none => exact absurd (List.head?_eq_none_iff.mp hh) hne
    | some m =>
      exact ⟨m, rfl, by simp [ProjectUpdateViewSet_create, hreq, hh]⟩
  · simp [CanUploadProjectProgress_object, hstaff, roleIn, hrole,
      List.any_eq_true]
    exact hnopart

/-- C4 witness: student Sam (id 4, role student, active member of lead
school 7, no participant row anywhere) POSTs an update to project 30 led by
school 7: the create succeeds and the row is saved for school 7. -/
theorem C4_student_upload_not_denied_witness :
    ProjectUpdateViewSet_create ⟨[⟨4, 7, true⟩], [], []⟩
      ⟨4, some "student", false, true, true, none⟩ ⟨30, 1, 7⟩
      = UploadOutcome.created ⟨30, 7, 4⟩ := by
  have h := C4_student_upload_not_denied ⟨[⟨4, 7, true⟩], [], []⟩
    ⟨4, some "student", false, true, true, none⟩ ⟨30, 1, 7⟩
    rfl rfl rfl (by decide) (by intro pp hpp; simp at hpp)
  obtain ⟨⟨m, hm, hres⟩, -⟩ := h
  have hm' : some (⟨4, 7, true⟩ : SchoolMembership) = some m := hm
  obtain rfl : (⟨4, 7, true⟩ : SchoolMembership) = m :=
    Option.some_inj.mp hm'
  exact hres

theorem find?_eq_some_of_exists {α : Type} {l : List α} {p : α → Bool}
    (h : ∃ x ∈ l, p x = true) :
    ∃ y, l.find? p = some y ∧ y ∈ l ∧ p y = true := by
  have hs : (l.find? p).isSome = true := by
    rw [List.find?_isSome]
    exact h
  obtain ⟨y, hy⟩ := Option.isSome_iff_exists.mp hs
  exact ⟨y, hy, List.mem_of_find?_eq_some hy, List.find?_some hy⟩

/-- C10: `ProjectViewSet.join` always acts on the school of the FIRST active
membership of the caller in store order (no request input selects the
school): with no active membership it errors and changes nothing; if that
school's participation row exists and is active it returns the
already-participating error leaving the store unchanged; if no row exists a
fresh active participation for exactly that school is appended; if the row
exists but is inactive it is reactivated and every other row is untouched. -/
theorem C10_project_join_first_school (db : DB) (u : User) (project : Nat) :
    ((db.memberships.filter
        (fun m => m.user == u.id && m.is_active)).head? = none →
      ProjectViewSet_join db u project = (JoinOutcome.mustBeMember, db)) ∧
    (∀ m, (db.memberships.filter
        (fun m => m.user == u.id && m.is_active)).head? = some m →
      ((∃ pp ∈ db.participations,
          pp.project = project ∧ pp.school = m.school) →
        (∀ pp ∈ db.participations, pp.project = project →
          pp.school = m.school → pp.is_active = true) →
        ProjectViewSet_join db u project
          = (JoinOutcome.alreadyParticipating, db)) ∧
      ((∀ pp ∈ db.participations,
          ¬(pp.project = project ∧ pp.school = m.school)) →
        ProjectViewSet_join db u project
          = (JoinOutcome.joined,
             { db with participations :=
                 db.participations ++ [⟨project, m.school, true⟩] })) ∧
      ((∃ pp ∈ db.participations,
          pp.project = project ∧ pp.school = m.school) →
        (∀ pp ∈ db.participations, pp.project = project →
          pp.school = m.school → pp.is_active = false) →
        (ProjectViewSet_join db u project).1 = JoinOutcome.joined ∧
        (∃ q ∈ (ProjectViewSet_join db u project).2.participations,
          q.project = project ∧ q.school = m.school ∧ q.is_active = true) ∧
        (∀ q ∈ (ProjectViewSet_join db u project).2.participations,
          q ∈ db.participations ∨
            (q.project = project ∧ q.school = m.school
              ∧ q.is_active = true)))) := by
  constructor
  · intro hnone
    simp [ProjectViewSet_join, hnone]
  · intro m hm
    refine ⟨?_, ?_, ?_⟩
    · rintro ⟨pp, hpp, hp1, hp2⟩ hall
      obtain ⟨y, hfind, hymem, hyp⟩ := find?_eq_some_of_exists
        (p := fun q => q.project == project && q.school == m.school)
        ⟨pp, hpp, by simp [hp1, hp2]⟩
      simp only [Bool.and_eq_true, beq_iff_eq] at hyp
      have hyact : y.is_active = true := hall y hymem hyp.1 hyp.2
      simp [ProjectViewSet_join, hm, hfind, hyact]
    · intro hno
      have hfindnone : db.participations.find?
          (fun q => q.project == project && q.school == m.school) = none := by
        rw [List.find?_eq_none]
        intro pp hpp
        simp only [Bool.and_eq_true, beq_iff_eq]
        intro h
        exact hno pp hpp h
      simp [ProjectViewSet_join, hm, hfindnone]
    · rintro ⟨pp, hpp, hp1, hp2⟩ hall
      obtain ⟨y, hfind, hymem, hyp⟩ := find?_eq_some_of_exists
        (p := fun q => q.project == project && q.school == m.school)
        ⟨pp, hpp, by simp [hp1, hp2]⟩
      simp only [Bool.and_eq_true, beq_iff_eq] at hyp
      have hyact : y.is_active = false := hall y hymem hyp.1 hyp.2
      have hres : ProjectViewSet_join db u project
          = (JoinOutcome.joined,
             { db with participations := db.participations.map (fun q =>
                 if q.project == project && q.school == m.school then
                   { q with is_active := true }
                 else q) }) := by
        simp [ProjectViewSet_join, hm, hfind, hyact]
      rw [hres]
      refine ⟨rfl, ?_, ?_⟩
      · refine ⟨{ y with is_active := true }, ?_, ?_, ?_, rfl⟩
        · exact List.mem_map.mpr ⟨y, hymem, by simp [hyp.1, hyp.2]⟩
        · exact hyp.1
        · exact hyp.2
      · intro q hq
        obtain ⟨q', hq', hfq⟩ := List.mem_map.mp hq
        by_cases hcond : q'.project == project && q'.school == m.school
        · right
          rw [if_pos hcond] at hfq
          simp only [Bool.and_eq_true, beq_iff_eq] at hcond
          rw [← hfq]
          exact ⟨hcond.1, hcond.2, rfl⟩
        · left
          rw [if_neg hcond] at hfq
          rw [← hfq]
          exact hq'

/-- C10 witness: user 4's first active membership is school 7; joining
project 30 with no existing participation appends exactly the active
`(30, 7)` participation row. -/
theorem C10_project_join_first_school_witness :
    ProjectViewSet_join ⟨[⟨4, 9, false⟩, ⟨4, 7, true⟩, ⟨4, 8, true⟩], [], []⟩
      ⟨4, some "teacher", false, true, true, none⟩ 30
      = (JoinOutcome.joined,
         ⟨[⟨4, 9, false⟩, ⟨4, 7, true⟩, ⟨4, 8, true⟩], [⟨30, 7, true⟩], []⟩) := by
  exact ((C10_project_join_first_school
    ⟨[⟨4, 9, false⟩, ⟨4, 7, true⟩, ⟨4, 8, true⟩], [], []⟩
    ⟨4, some "teacher", false, true, true, none⟩ 30).2 ⟨4, 7, true⟩
    (by decide)).2.1 (by intro pp hpp; simp at hpp)

/-!  Helper lemmas for the email-OTP flow.  -/

theorem toDigitsCore_ten_length :
    ∀ (f n : Nat) (l : List Char), n < f →
      (Nat.toDigitsCore 10 f n l).length = Nat.log 10 n + 1 + l.length := by
  intro f
  induction f with
  | zero => intro n l h; omega
  | succ f ih =>
    intro n l h
    rw [Nat.toDigitsCore]
    by_cases hz : n / 10 = 0
    · have hn : n < 10 := by omega
      have hlog : Nat.log 10 n = 0 := Nat.log_of_lt hn
      simp [hz, hlog]
      omega
    · have hge : 10 ≤ n := by
        by_contra hc
        push_neg at hc
        exact hz (Nat.div_eq_of_lt hc)
      have hlt : n / 10 < f := by
        have h1 : n / 10 < n := Nat.div_lt_self (by omega) (by omega)
        omega
      rw [if_neg hz]
      rw [ih (n / 10) _ hlt]
      have hlog : Nat.log 10 (n / 10) = Nat.log 10 n - 1 := Nat.log_div_base 10 n
      have hpos : 0 < Nat.log 10 n := Nat.log_pos (by omega) hge
      simp only [List.length_cons]
      omega

theorem repr_length_eq (n : Nat) : (Nat.repr n).length = Nat.log 10 n + 1 := by
  have h := toDigitsCore_ten_length (n + 1) n [] (Nat.lt_succ_self n)
  simpa [Nat.repr, Nat.toDigits, String.length, List.asString] using h

theorem latestByCreated_aux :
    ∀ (l : List EmailLoginOTP) (acc : Option EmailLoginOTP)
      (o : EmailLoginOTP),
      l.foldl (fun acc o =>
        match acc with
        | none => some o
        | some a =>
          if o.created_at > a.created_at then some o else some a) acc
        = some o →
      acc = some o ∨ o ∈ l := by
  intro l
  induction l with
  | nil => intro acc o h; exact Or.inl h
  | cons x xs ih =>
    intro acc o h
    simp only [List.foldl_cons] at h
    rcases ih _ o h with hacc | hmem
    · cases acc with
      | none =>
        have hacc' : some x = some o := hacc
        simp only [Option.some.injEq] at hacc'
        right
        rw [← hacc']
        exact List.mem_cons_self x xs
      | some a =>
        have hacc' : (if x.created_at > a.created_at then some x
            else some a) = some o := hacc
        by_cases hgt : x.created_at > a.created_at
        · rw [if_pos hgt] at hacc'
          simp only [Option.some.injEq] at hacc'
          right
          rw [← hacc']
          exact List.mem_cons_self x xs
        · rw [if_neg hgt] at hacc'
          exact Or.inl hacc'
    · right
      exact List.mem_cons_of_mem x hmem

theorem latestByCreated_mem {l : List EmailLoginOTP} {o : EmailLoginOTP}
    (h : latestByCreated l = some o) : o ∈ l := by
  rcases latestByCreated_aux l none o h with hacc | hmem
  · exact absurd hacc (by simp)
  · exact hmem

/-- Characterization of a successful `EmailLoginVerifyView.post`: it picked a
stored OTP row that matches the email and code, is unused and unexpired, and
the output store is the input with exactly that row marked used. -/
theorem emailVerify_success {db : List EmailLoginOTP} {now : Int}
    {email code : Option String} {e : String}
    (h : (EmailLoginVerifyView_post db now email code).1
      = OtpOutcome.tokens e) :
    (falsyStr email || falsyStr code) = false ∧
    ∃ otp ∈ db, otp.email = email.getD "" ∧ otp.code = code.getD "" ∧
      otp.is_used = false ∧ otp.is_expired now = false ∧
      (EmailLoginVerifyView_post db now email code).2
        = db.map (fun o =>
            if o.id == otp.id then { o with is_used := true } else o) := by
  by_cases hf : (falsyStr email || falsyStr code) = true
  · simp [EmailLoginVerifyView_post, hf] at h
  · have hf' : (falsyStr email || falsyStr code) = false :=
      Bool.not_eq_true _ ▸ eq_false_of_ne_true hf
    cases hlatest : latestByCreated (db.filter fun o =>
        o.email == email.getD "" && o.code == code.getD ""
          && !o.is_used) with
    | none => simp [EmailLoginVerifyView_post, hf', hlatest] at h
    | some otp =>
      cases hexp : otp.is_expired now with
      | true => simp [EmailLoginVerifyView_post, hf', hlatest, hexp] at h
      | false =>
        have hmem := latestByCreated_mem hlatest
        rw [List.mem_filter] at hmem
        obtain ⟨hdb, hpred⟩ := hmem
        simp only [Bool.and_eq_true, beq_iff_eq, Bool.not_eq_true'] at hpred
        refine ⟨hf', otp, hdb, hpred.1.1, hpred.1.2, hpred.2, hexp, ?_⟩
        simp [EmailLoginVerifyView_post, hf', hlatest, hexp]

/-- C9: (a) the issued login code always has exactly 6 digits;
(b) verification succeeds only if a matching unused OTP row at most 600
seconds old exists; (c) success marks that row used, so when it was the only
matching unused row a replay of the same (email, code) pair is rejected with
the invalid-code error; (d) when every matching unused row is expired,
verification never issues tokens. -/
theorem C9_email_otp_discipline :
    (∀ r : Nat, r < 900000 → (EmailLoginRequestView_code r).length = 6) ∧
    (∀ (db : List EmailLoginOTP) (now : Int) (email code : Option String)
      (e : String),
      (EmailLoginVerifyView_post db now email code).1 = OtpOutcome.tokens e →
      ∃ o ∈ db, o.email = email.getD "" ∧ o.code = code.getD ""
        ∧ o.is_used = false ∧ now - o.created_at ≤ 600) ∧
    (∀ (db : List EmailLoginOTP) (now now2 : Int)
      (email code : Option String) (e : String),
      (∀ o1 ∈ db, ∀ o2 ∈ db,
        o1.email = email.getD "" → o1.code = code.getD "" →
        o1.is_used = false →
        o2.email = email.getD "" → o2.code = code.getD "" →
        o2.is_used = false → o1.id = o2.id) →
      (EmailLoginVerifyView_post db now email code).1 = OtpOutcome.tokens e →
      (EmailLoginVerifyView_post
        (EmailLoginVerifyView_post db now email code).2 now2 email code).1
        = OtpOutcome.invalidCode) ∧
    (∀ (db : List EmailLoginOTP) (now : Int) (email code : Option String),
      (∀ o ∈ db, o.email = email.getD "" → o.code = code.getD "" →
        o.is_used = false → now - o.created_at > 600) →
      ∀ e, (EmailLoginVerifyView_post db now email code).1
        ≠ OtpOutcome.tokens e) := by
  refine ⟨?_, ?_, ?_, ?_⟩
  · intro r hr
    have h1 : EmailLoginRequestView_code r = Nat.repr (100000 + r) := rfl
    rw [h1, repr_length_eq]
    have h2 : Nat.log 10 (100000 + r) = 5 :=
      Nat.log_eq_of_pow_le_of_lt_pow (by omega) (by norm_num; omega)
    omega
  · intro db now email code e h
    obtain ⟨_, otp, hdb, he, hc, hu, hexp, _⟩ := emailVerify_success h
    refine ⟨otp, hdb, he, hc, hu, ?_⟩
    simp only [EmailLoginOTP.is_expired, decide_eq_false_iff_not,
      not_lt] at hexp
    omega
  · intro db now now2 email code e huniq hsucc
    obtain ⟨hf, otp, hdb, he, hc, hu, _, hdb'⟩ := emailVerify_success hsucc
    rw [hdb']
    have hempty : ((db.map (fun o =>
        if o.id == otp.id then { o with is_used := true } else o)).filter
          (fun o => o.email == email.getD "" && o.code == code.getD ""
            && !o.is_used)) = [] := by
      rw [List.filter_eq_nil_iff]
      intro a ha
      obtain ⟨o', ho', hfo⟩ := List.mem_map.mp ha
      by_cases hid : (o'.id == otp.id) = true
      · rw [if_pos hid] at hfo
        rw [← hfo]
        simp
      · rw [if_neg hid] at hfo
        rw [← hfo]
        simp only [Bool.and_eq_true, beq_iff_eq, Bool.not_eq_true',
          not_and]
        rintro ⟨he', hc'⟩ hu'
        have := huniq o' ho' otp hdb he' hc' hu' he hc hu
        rw [beq_iff_eq] at hid
        exact absurd this hid
    unfold EmailLoginVerifyView_post
    simp only [hf, Bool.false_eq_true, if_false]
    rw [hempty]
    rfl
  · intro db now email code hall e hsucc
    obtain ⟨_, otp, hdb, he, hc, hu, hexp, _⟩ := emailVerify_success hsucc
    have h1 := hall otp hdb he hc hu
    simp only [EmailLoginOTP.is_expired, decide_eq_false_iff_not,
      not_lt] at hexp
    omega

/-- C9 witness: a concrete fresh OTP row verifies once and the replay of the
same (email, code) pair is rejected; the code built from a concrete draw has
6 digits. -/
theorem C9_email_otp_discipline_witness :
    (EmailLoginVerifyView_post
      (EmailLoginVerifyView_post [⟨1, "a@b", "123456", 0, false⟩] 10
        (some "a@b") (some "123456")).2 20
      (some "a@b") (some "123456")).1 = OtpOutcome.invalidCode ∧
    (EmailLoginRequestView_code 0).length = 6 := by
  constructor
  · exact C9_email_otp_discipline.2.2.1 [⟨1, "a@b", "123456", 0, false⟩]
      10 20 (some "a@b") (some "123456") "a@b" (by decide) (by decide)
  · exact C9_email_otp_discipline.1 0 (by omega)

/-- C1 (code bug, evaluated at the failing input): `WalletLoginView.post`
never reads, consumes or deletes a `WalletNonce`.  With a store holding one
wallet user and one fresh stored nonce, the login succeeds, the nonce table
is unchanged, and replaying the *identical* message and signature succeeds
again with fresh tokens instead of failing with a nonce-not-found error.
The repository's own `verify_wallet_signature` helper implements exactly the
claimed discipline — it deletes the nonce on first success and answers
nonce-not-found on replay — but no view ever calls it. -/
theorem C1_wallet_login_replay_reissues_tokens :
    WalletLoginView_post replayRecover replayDB (some "0xAB") (some "sig1")
        (some replayMessage) = (LoginOutcome.tokens 7, replayDB) ∧
    (WalletLoginView_post replayRecover replayDB (some "0xAB") (some "sig1")
        (some replayMessage)).2.nonces = replayDB.nonces ∧
    WalletLoginView_post replayRecover
        (WalletLoginView_post replayRecover replayDB (some "0xAB")
          (some "sig1") (some replayMessage)).2
        (some "0xAB") (some "sig1") (some replayMessage)
      = (LoginOutcome.tokens 7, replayDB) ∧
    verify_wallet_signature replayRecover 0 replayDB.nonces "0xAB"
        replayMessage "sig1" "Login" = (none, []) ∧
    (verify_wallet_signature replayRecover 0 [] "0xAB" replayMessage
        "sig1" "Login").1 = some VerifySigError.nonceNotFound := by
  decide

end GC
